import Mathlib

/-!
Shallow embedding of `drivers/platform/chrome/cros_ec_sysfs.c` (ChromeOS EC
sysfs attributes) and proofs about its attribute handlers.

The device transport (`cros_ec_cmd_xfer_status` / `cros_ec_cmd`) is external to
this file's source; each handler is embedded as a function of the transport's
outcomes, which are passed in explicitly.  Numeric constants taken from the EC
command header (`ec_commands.h`, outside `src/`) are noted where defined; the
claims use them symbolically.
-/

deriving instance DecidableEq for Except

/-- C `isspace` in the ASCII/C locale, as used by `reboot_store`'s scanner:
space (0x20) or tab, line feed, vertical tab, form feed, carriage return
(0x09..0x0d). -/
def isspace (c : Char) : Bool := c.toNat = 32 || (9 ≤ c.toNat && c.toNat ≤ 13)

/-- Negation of `isspace`, the loop condition of the word-skipping scan. -/
def notspace (c : Char) : Bool := !isspace c

/-- ASCII `tolower`, the character folding performed by `strncasecmp`. -/
def c_tolower (c : Char) : Char :=
  if 65 ≤ c.toNat && c.toNat ≤ 90 then Char.ofNat (c.toNat + 32) else c

/-- The test `strncasecmp(w, s, strlen(w)) == 0` where `s` stands for the
NUL-terminated remainder of the input buffer, modelled as a list of its
characters before the NUL.  Comparison stops at `w`'s end; reaching the end of
`s` first means the NUL differed from `w`'s next character. -/
def strncasecmp0 : List Char → List Char → Bool
  | [], _ => true
  | _ :: _, [] => false
  | c :: w, d :: s => c_tolower c == c_tolower d && strncasecmp0 w s

/-- Reboot command codes from `enum ec_reboot_cmd` (EC command header). -/
def EC_REBOOT_CANCEL : Nat := 0

/-- Code for jumping to the RO image. -/
def EC_REBOOT_JUMP_RO : Nat := 1

/-- Code for jumping to the RW image. -/
def EC_REBOOT_JUMP_RW : Nat := 2

/-- Code for a cold reboot. -/
def EC_REBOOT_COLD : Nat := 4

/-- Code for disabling jump until next reboot. -/
def EC_REBOOT_DISABLE_JUMP : Nat := 5

/-- Code for hibernating the EC. -/
def EC_REBOOT_HIBERNATE : Nat := 6

/-- Code for a cold reboot with the AP held off. -/
def EC_REBOOT_COLD_AP_OFF : Nat := 8

/-- Flag bit `EC_REBOOT_FLAG_ON_AP_SHUTDOWN` (BIT(1) in the EC command
header): perform the reboot at AP shutdown. -/
def EC_REBOOT_FLAG_ON_AP_SHUTDOWN : Nat := 2

/-- One entry of the fixed keyword table in `reboot_store` (lines 41-54). -/
structure RebootWord where
  str : List Char
  cmd : Nat
  flags : Nat
deriving DecidableEq, Repr

/-- The fixed keyword table `words[]` of `reboot_store`, in source order.  The
`at-shutdown` entry's `cmd` is `(uint8_t)(-1) = 255`, never used because its
`flags` field is nonzero. -/
def reboot_words : List RebootWord :=
  [⟨"cancel".toList, EC_REBOOT_CANCEL, 0⟩,
   ⟨"ro".toList, EC_REBOOT_JUMP_RO, 0⟩,
   ⟨"rw".toList, EC_REBOOT_JUMP_RW, 0⟩,
   ⟨"cold-ap-off".toList, EC_REBOOT_COLD_AP_OFF, 0⟩,
   ⟨"cold".toList, EC_REBOOT_COLD, 0⟩,
   ⟨"disable-jump".toList, EC_REBOOT_DISABLE_JUMP, 0⟩,
   ⟨"hibernate".toList, EC_REBOOT_HIBERNATE, 0⟩,
   ⟨"at-shutdown".toList, 255, EC_REBOOT_FLAG_ON_AP_SHUTDOWN⟩]

/-- The mutable locals of `reboot_store`'s scanning loop: `param->cmd`,
`param->flags` and `got_cmd`.  `param->cmd` is uninitialised in the C code and
only ever read after `got_cmd` is set; the embedding starts it at 0. -/
structure RebootSt where
  cmd : Nat
  flags : Nat
  got_cmd : Bool
deriving DecidableEq, Repr

/-- The table-hit action (lines 79-84): a nonzero `flags` entry ORs its flag
bits in, a zero-`flags` entry assigns the reboot-type code and records that a
command word was seen. -/
def applyWord (st : RebootSt) (e : RebootWord) : RebootSt :=
  if e.flags ≠ 0 then { st with flags := st.flags ||| e.flags }
  else { cmd := e.cmd, flags := st.flags, got_cmd := true }

/-- The inner table scan of `reboot_store` (lines 76-87): first table entry
whose word matches the head of the remaining buffer case-insensitively for the
word's length (`strncasecmp`), if any. -/
def findWord (s : List Char) : Option RebootWord :=
  reboot_words.find? (fun e => strncasecmp0 e.str s)

/-- The `while (1)` scanning loop of `reboot_store` (lines 69-92), fuelled:
skip whitespace, stop at the NUL, scan the table at the word start, then skip
the word.  Each iteration consumes at least one character, so any fuel above
the buffer length is enough. -/
def rebootLoopF : Nat → List Char → RebootSt → RebootSt
  | 0, _, st => st
  | fuel + 1, s, st =>
    match s.dropWhile isspace with
    | [] => st
    | c :: t =>
      let st1 := match findWord (c :: t) with
        | some e => applyWord st e
        | none => st
      rebootLoopF fuel ((c :: t).dropWhile notspace) st1

/-- The scanning loop of `reboot_store` run to completion on buffer `s`. -/
def rebootLoop (s : List Char) (st : RebootSt) : RebootSt :=
  rebootLoopF (s.length + 1) s st

/-- The reboot command message built by `reboot_store`:
`ec_params_reboot_ec`'s `cmd` and `flags` fields. -/
structure RebootMsg where
  cmd : Nat
  flags : Nat
deriving DecidableEq, Repr

/-- The `reboot_store` handler (lines 37-109).  `xfer` gives the return value
of `cros_ec_cmd_xfer_status` for the message that would be sent; allocation is
assumed to succeed.  Result: the command issued to the device (if any) and the
returned count (negative errno on failure; `-EINVAL = -22` when no reboot-type
word was recognised, in which case no command is issued). -/
def reboot_store (xfer : RebootMsg → Int) (buf : List Char) (count : Int) :
    Option RebootMsg × Int :=
  let st := rebootLoop buf ⟨0, 0, false⟩
  if st.got_cmd then
    let msg : RebootMsg := ⟨st.cmd, st.flags⟩
    let ret := xfer msg
    (some msg, if ret < 0 then ret else count)
  else (none, -22)

/-- Token view of the input buffer: the maximal whitespace-separated words, in
order, computed with the same fuel pattern as the loop itself. -/
def cwordsF : Nat → List Char → List (List Char)
  | 0, _ => []
  | fuel + 1, s =>
    match s.dropWhile isspace with
    | [] => []
    | c :: t => (c :: t).takeWhile notspace :: cwordsF fuel ((c :: t).dropWhile notspace)

/-- The whitespace-separated words of buffer `s`. -/
def cwords (s : List Char) : List (List Char) := cwordsF (s.length + 1) s

/-- First table entry matching a single token (the token equals the remaining
buffer truncated at its first whitespace, so `strncasecmp0` against the token
is exactly the prefix test the loop performs there). -/
def matchedEntry (tok : List Char) : Option RebootWord :=
  reboot_words.find? (fun e => strncasecmp0 e.str tok)

/-- The reboot-type code a token contributes, if its first table match is a
type entry (zero `flags`). -/
def matchedType (tok : List Char) : Option Nat :=
  match matchedEntry tok with
  | some e => if e.flags ≠ 0 then none else some e.cmd
  | none => none

/-- The flag bits a token contributes, if its first table match is a flag
entry (nonzero `flags`). -/
def matchedFlags (tok : List Char) : Option Nat :=
  match matchedEntry tok with
  | some e => if e.flags ≠ 0 then some e.flags else none
  | none => none

/-- The effect of one token on the loop state. -/
def stepTok (st : RebootSt) (tok : List Char) : RebootSt :=
  match matchedEntry tok with
  | some e => applyWord st e
  | none => st

/-- The reboot-type codes contributed by the recognised type tokens of the
buffer, in input order. -/
def typeCodes (buf : List Char) : List Nat := (cwords buf).filterMap matchedType

/-- The OR of all flag bits contributed by recognised flag tokens. -/
def flagBits (buf : List Char) : Nat :=
  ((cwords buf).filterMap matchedFlags).foldl (fun a b => a ||| b) 0

/-- Force the last byte of a fixed-size device field to a NUL terminator, as
`version_show` does with `field[sizeof(field) - 1] = 0` before formatting
(lines 139-140, 156, 171-173). -/
def forceTerminate (l : List Nat) : List Nat :=
  match l with
  | [] => []
  | _ :: _ => l.take (l.length - 1) ++ [0]

/-- The bytes a `%s` format actually renders: everything before the first NUL. -/
def cString (l : List Nat) : List Nat := l.takeWhile (fun b => b ≠ 0)

/-- Render a byte sequence as text (each byte one character). -/
def byteStr (l : List Nat) : String := String.mk (l.map Char.ofNat)

/-- Struct `ec_response_get_version` (EC command header): two fixed 32-byte
version strings, a reserved field, and the running-image discriminant.  The
fixed capacities are kept abstract as the lists' lengths. -/
structure ec_response_get_version where
  version_string_ro : List Nat
  version_string_rw : List Nat
  reserved : List Nat
  current_image : Nat
deriving DecidableEq, Repr

/-- Struct `ec_response_get_chip_info` (EC command header): three fixed
32-byte strings. -/
structure ec_response_get_chip_info where
  vendor : List Nat
  name : List Nat
  revision : List Nat
deriving DecidableEq, Repr

/-- Struct `ec_response_board_version` (EC command header): one 16-bit
version number. -/
structure ec_response_board_version where
  board_version : Nat
deriving DecidableEq, Repr

/-- Outcome of one `cros_ec_cmd_xfer_status` exchange that failed: the
negative status `ret` returned by the transport layer and the device result
code left in `msg->result`. -/
structure XferFail where
  ret : Int
  result : Nat
deriving DecidableEq, Repr

/-- The outcomes of the four sub-queries issued by `version_show`, in query
order: get-version, get-build-info (a raw `EC_HOST_PARAM_SIZE` blob),
get-chip-info, get-board-version. -/
structure VersionQueries where
  get_version : Except XferFail ec_response_get_version
  get_build_info : Except XferFail (List Nat)
  get_chip_info : Except XferFail ec_response_get_chip_info
  get_board_version : Except XferFail ec_response_board_version

/-- The fixed image-name table `image_names[]` of `version_show` (line 114). -/
def image_names : List String := ["unknown", "RO", "RW"]

/-- The "Firmware copy" value (lines 143-145): the table entry when
`current_image` is in range, the literal "?" otherwise. -/
def firmwareCopyName (v : Nat) : String :=
  if v < image_names.length then image_names.getD v "?" else "?"

/-- The three lines emitted for a successful get-version response
(lines 139-145). -/
def versionSegment (r : ec_response_get_version) : String :=
  "RO version:    " ++ byteStr (cString (forceTerminate r.version_string_ro)) ++ "\n"
  ++ "RW version:    " ++ byteStr (cString (forceTerminate r.version_string_rw)) ++ "\n"
  ++ "Firmware copy: " ++ firmwareCopyName r.current_image ++ "\n"

/-- The build-info line (lines 150-158): a diagnostic with the transport
status and device result code on failure, the NUL-forced blob on success. -/
def buildSegment : Except XferFail (List Nat) → String
  | .error f =>
      "Build info:    XFER / EC ERROR " ++ toString f.ret ++ " / "
        ++ toString f.result ++ "\n"
  | .ok data => "Build info:    " ++ byteStr (cString (forceTerminate data)) ++ "\n"

/-- The chip-info lines (lines 163-177): one diagnostic line on failure,
three formatted lines on success. -/
def chipSegment : Except XferFail ec_response_get_chip_info → String
  | .error f =>
      "Chip info:     XFER / EC ERROR " ++ toString f.ret ++ " / "
        ++ toString f.result ++ "\n"
  | .ok r =>
      "Chip vendor:   " ++ byteStr (cString (forceTerminate r.vendor)) ++ "\n"
      ++ "Chip name:     " ++ byteStr (cString (forceTerminate r.name)) ++ "\n"
      ++ "Chip revision: " ++ byteStr (cString (forceTerminate r.revision)) ++ "\n"

/-- The board-version line (lines 182-193): one diagnostic line on failure,
the decimal version on success. -/
def boardSegment : Except XferFail ec_response_board_version → String
  | .error f =>
      "Board version: XFER / EC ERROR " ++ toString f.ret ++ " / "
        ++ toString f.result ++ "\n"
  | .ok r => "Board version: " ++ toString r.board_version ++ "\n"

/-- The `version_show` handler (lines 111-198).  A get-version failure aborts
the whole read with that status (lines 133-136); afterwards the remaining
three sub-queries each contribute their segment independently and the output
is the concatenation in query order. -/
def version_show (q : VersionQueries) : Except Int String :=
  match q.get_version with
  | .error f => .error f.ret
  | .ok r =>
      .ok (versionSegment r ++ buildSegment q.get_build_info
        ++ chipSegment q.get_chip_info ++ boardSegment q.get_board_version)

/-- Concrete sub-query outcomes where get-version fails with transport status
-71 (device result code 1) and the other three sub-queries would succeed. -/
def c1_cex_queries : VersionQueries :=
  { get_version := .error ⟨-71, 1⟩,
    get_build_info := .ok [66, 0],
    get_chip_info := .ok ⟨[86, 0], [78, 0], [82, 0]⟩,
    get_board_version := .ok ⟨2⟩ }

/-- USB-PD mux flag bit `USB_PD_MUX_USB_ENABLED` (BIT(0), EC command header). -/
def USB_PD_MUX_USB_ENABLED : Nat := 1

/-- Flag bit BIT(1): DisplayPort enabled. -/
def USB_PD_MUX_DP_ENABLED : Nat := 2

/-- Flag bit BIT(2): polarity inverted. -/
def USB_PD_MUX_POLARITY_INVERTED : Nat := 4

/-- Flag bit BIT(3): hot-plug-detect IRQ pending. -/
def USB_PD_MUX_HPD_IRQ : Nat := 8

/-- Flag bit BIT(4): hot-plug-detect level. -/
def USB_PD_MUX_HPD_LVL : Nat := 16

/-- Flag bit BIT(5): safe mode. -/
def USB_PD_MUX_SAFE_MODE : Nat := 32

/-- Flag bit BIT(6): Thunderbolt-compatible enabled. -/
def USB_PD_MUX_TBT_COMPAT_ENABLED : Nat := 64

/-- Flag bit BIT(7): USB4 enabled. -/
def USB_PD_MUX_USB4_ENABLED : Nat := 128

/-- The C idiom `!!(flags & mask)`. -/
def bitFlag (flags mask : Nat) : Nat := if flags &&& mask ≠ 0 then 1 else 0

/-- The line `usbpdmuxinfo_show` emits for one successful per-port mux-info
query (lines 324-341), naming all eight boolean flags. -/
def portLine (i : Nat) (flags : Nat) : String :=
  "Port " ++ toString i ++ ":"
  ++ " USB=" ++ toString (bitFlag flags USB_PD_MUX_USB_ENABLED)
  ++ " DP=" ++ toString (bitFlag flags USB_PD_MUX_DP_ENABLED)
  ++ " POLARITY="
  ++ (if flags &&& USB_PD_MUX_POLARITY_INVERTED ≠ 0 then "INVERTED" else "NORMAL")
  ++ " HPD_IRQ=" ++ toString (bitFlag flags USB_PD_MUX_HPD_IRQ)
  ++ " HPD_LVL=" ++ toString (bitFlag flags USB_PD_MUX_HPD_LVL)
  ++ " SAFE=" ++ toString (bitFlag flags USB_PD_MUX_SAFE_MODE)
  ++ " TBT=" ++ toString (bitFlag flags USB_PD_MUX_TBT_COMPAT_ENABLED)
  ++ " USB4=" ++ toString (bitFlag flags USB_PD_MUX_USB4_ENABLED) ++ "\n"

/-- The `usbpdmuxinfo_show` handler (lines 299-346).  `ports` is the outcome
of the `EC_CMD_USB_PD_PORTS` query (the reported port count on success);
`mux i` is the outcome of the `EC_CMD_USB_PD_MUX_INFO` query for port `i`
(the flags word on success).  A port-count failure returns `-EIO = -5`; a
failed per-port query contributes nothing; if nothing was emitted
(`count` zero) the read fails with `-EIO`. -/
def usbpdmuxinfo_show (ports : Except Int Nat) (mux : Nat → Except Int Nat) :
    Except Int String :=
  match ports with
  | .error _ => .error (-5)
  | .ok num_ports =>
    let out := (List.range num_ports).foldl (fun acc i =>
      match mux i with
      | .error _ => acc
      | .ok flags => acc ++ portLine i flags) ""
    if out.length = 0 then .error (-5) else .ok out

/-- The lines contributed by the successfully queried ports of `l`. -/
def muxLines (mux : Nat → Except Int Nat) (l : List Nat) : List String :=
  l.filterMap (fun i =>
    match mux i with
    | .ok flags => some (portLine i flags)
    | .error _ => none)

/-- Concatenation of a list of emitted lines. -/
def concatLines : List String → String
  | [] => ""
  | x :: ls => x ++ concatLines ls

/-- The six attributes registered in `__ec_attrs[]` (lines 360-375). -/
inductive EcAttr
  | kb_wake_angle
  | reboot
  | version
  | flashinfo
  | usbpdmuxinfo
  | ap_mode_entry
deriving DecidableEq, Repr

/-- Declared mode of each attribute: `DEVICE_ATTR_RW` (0644) for `reboot` and
`kb_wake_angle`, `DEVICE_ATTR_RO` (0444) for the rest (lines 360-365). -/
def attrMode : EcAttr → Nat
  | .kb_wake_angle => 0o644
  | .reboot => 0o644
  | .version => 0o444
  | .flashinfo => 0o444
  | .usbpdmuxinfo => 0o444
  | .ap_mode_entry => 0o444

/-- The device-handle state consulted by `cros_ec_ctrl_visible`: the
keyboard-wake-angle capability flag and the platform identity string
(`ec_platform->ec_name` of the device's platform data). -/
structure cros_ec_dev where
  has_kb_wake_angle : Bool
  ec_name : String

/-- The primary controller's device name, `CROS_EC_DEV_NAME` ("cros_ec",
cros_ec header, outside src/). -/
def CROS_EC_DEV_NAME : String := "cros_ec"

/-- The visibility callback `cros_ec_ctrl_visible` (lines 377-395): 0 hides
the attribute, otherwise the attribute's declared mode is kept. -/
def cros_ec_ctrl_visible (ec : cros_ec_dev) (a : EcAttr) : Nat :=
  if a = .kb_wake_angle ∧ ec.has_kb_wake_angle = false then 0
  else if (a = .usbpdmuxinfo ∨ a = .ap_mode_entry) ∧ ec.ec_name ≠ CROS_EC_DEV_NAME then 0
  else attrMode a

/-- Modelled from the spec: `kstrtou16` (lib/kstrtox.c, outside src/) parses
the write-path text as an unsigned 16-bit integer — optional leading plus,
decimal digits, optional trailing newline; malformed text yields
`-EINVAL = -22` before anything else happens, out-of-range values yield
`-ERANGE = -34`. -/
def kstrtou16 (s : List Char) : Except Int Nat :=
  let s1 := match s with
    | '+' :: t => t
    | _ => s
  let digits := s1.takeWhile (fun c => c.isDigit)
  let rest := s1.dropWhile (fun c => c.isDigit)
  if digits.isEmpty then .error (-22)
  else if !(rest.isEmpty || rest == ['\n']) then .error (-22)
  else
    let v := digits.foldl (fun a c => a * 10 + (c.toNat - 48)) 0
    if v ≤ 65535 then .ok v else .error (-34)

/-- The `kb_wake_angle_store` handler (lines 266-297): parse first, then send
the parsed angle; `xfer` gives the transport's return for the motion-sense
command carrying that angle.  Result: the angle sent (if any) and the return
value. -/
def kb_wake_angle_store (xfer : Nat → Int) (buf : List Char) (count : Int) :
    Option Nat × Int :=
  match kstrtou16 buf with
  | .error e => (none, e)
  | .ok angle =>
    let ret := xfer angle
    (some angle, if ret < 0 then ret else count)

/-- Helper: dropping a prefix never lengthens a list. -/
theorem length_dropWhile_le (p : Char → Bool) (l : List Char) :
    (l.dropWhile p).length ≤ l.length := by
  induction l with
  | nil => simp [List.dropWhile]
  | cons c t ih =>
    by_cases h : p c
    · rw [List.dropWhile_cons, if_pos h]; exact Nat.le_succ_of_le ih
    · rw [List.dropWhile_cons, if_neg h]

/-- Helper: the head of `dropWhile p l` fails `p`. -/
theorem dropWhile_head_false (p : Char → Bool) :
    ∀ (l : List Char) (c : Char) (t : List Char), l.dropWhile p = c :: t → p c = false := by
  intro l
  induction l with
  | nil => intro c t h; simp [List.dropWhile] at h
  | cons a l ih =>
    intro c t h
    by_cases ha : p a
    · rw [List.dropWhile_cons, if_pos ha] at h; exact ih _ _ h
    · rw [List.dropWhile_cons, if_neg ha] at h
      cases h; simpa using ha

/-- Helper: ASCII `tolower` fixes whitespace characters. -/
theorem c_tolower_of_isspace (d : Char) (h : isspace d = true) : c_tolower d = d := by
  have hd : d.toNat ≤ 32 := by
    simp [isspace] at h
    omega
  unfold c_tolower
  rw [if_neg]
  simp
  omega

/-- Helper: for a table word with no whitespace characters (after folding),
the `strncasecmp` prefix test against the remaining buffer equals the test
against the buffer truncated at its first whitespace, i.e. the current token. -/
theorem strncasecmp0_takeWhile (w : List Char)
    (hw : ∀ c ∈ w, isspace (c_tolower c) = false) :
    ∀ s : List Char, strncasecmp0 w (s.takeWhile notspace) = strncasecmp0 w s := by
  induction w with
  | nil => intro s; simp [strncasecmp0]
  | cons c w ih =>
    intro s
    match s with
    | [] => simp [List.takeWhile]
    | d :: s1 =>
      by_cases hd : isspace d
      · have hnd : notspace d = false := by simp [notspace, hd]
        rw [List.takeWhile_cons, if_neg (by simp [hnd])]
        have hcd : (c_tolower c == c_tolower d) = false := by
          apply beq_eq_false_iff_ne.mpr
          intro hEq
          have h1 : c_tolower d = d := c_tolower_of_isspace d hd
          have h2 : isspace (c_tolower c) = false := hw c (by simp)
          rw [hEq, h1] at h2
          rw [h2] at hd
          exact Bool.false_ne_true hd
        simp [strncasecmp0, hcd]
      · have hnd : notspace d = true := by simp [notspace, hd]
        rw [List.takeWhile_cons, if_pos (by simp [hnd])]
        simp only [strncasecmp0]
        rw [ih (fun x hx => hw x (by simp [hx])) s1]

/-- Helper: `find?` respects pointwise-equal predicates. -/
theorem find?_congr (l : List RebootWord) (p q : RebootWord → Bool)
    (h : ∀ x ∈ l, p x = q x) : l.find? p = l.find? q := by
  induction l with
  | nil => rfl
  | cons a t ih =>
    by_cases ha : q a = true
    · rw [List.find?_cons_of_pos _ (by rw [h a (by simp)]; exact ha),
          List.find?_cons_of_pos _ ha]
    · rw [List.find?_cons_of_neg _ (by rw [h a (by simp)]; simpa using ha),
          List.find?_cons_of_neg _ (by simpa using ha)]
      exact ih (fun x hx => h x (by simp [hx]))

/-- Helper: no table word contains a whitespace character (after folding). -/
theorem reboot_words_nonspace :
    ∀ e ∈ reboot_words, ∀ c ∈ e.str, isspace (c_tolower c) = false := by
  decide

/-- Helper: the table scan at a word start only looks at the current token. -/
theorem findWord_eq_matchedEntry (s : List Char) :
    findWord s = matchedEntry (s.takeWhile notspace) := by
  unfold findWord matchedEntry
  refine (find?_congr _ _ _ ?_).symm
  intro e he
  exact strncasecmp0_takeWhile e.str (reboot_words_nonspace e he) s

/-- Helper: with enough fuel, the character-level scanning loop is the fold of
the per-token step over the whitespace-separated words. -/
theorem rebootLoopF_eq_foldl :
    ∀ (fuel : Nat) (s : List Char) (st : RebootSt), s.length < fuel →
      rebootLoopF fuel s st = (cwordsF fuel s).foldl stepTok st := by
  intro fuel
  induction fuel with
  | zero => intro s st h; omega
  | succ fuel ih =>
    intro s st h
    simp only [rebootLoopF, cwordsF]
    cases hs : s.dropWhile isspace with
    | nil => simp
    | cons c t =>
      simp only [List.foldl_cons]
      have hc : isspace c = false := dropWhile_head_false isspace s c t hs
      have hnc : notspace c = true := by simp [notspace, hc]
      have hdw : (c :: t).dropWhile notspace = t.dropWhile notspace := by
        rw [List.dropWhile_cons, if_pos hnc]
      have hlen : ((c :: t).dropWhile notspace).length < fuel := by
        have h1 : (t.dropWhile notspace).length ≤ t.length := length_dropWhile_le _ _
        have h2 : (c :: t).length ≤ s.length := by
          rw [← hs]; exact length_dropWhile_le _ _
        simp only [List.length_cons] at h2
        rw [hdw]
        omega
      rw [ih _ _ hlen, findWord_eq_matchedEntry]
      cases hme : matchedEntry ((c :: t).takeWhile notspace) with
      | none => simp [stepTok, hme]
      | some e => simp [stepTok, hme]

/-- Helper: the scanning loop equals the token fold. -/
theorem rebootLoop_eq_foldl (s : List Char) (st : RebootSt) :
    rebootLoop s st = (cwords s).foldl stepTok st :=
  rebootLoopF_eq_foldl _ s st (Nat.lt_succ_self _)

/-- Helper: the token fold's final command is the last contributed type code,
its `got_cmd` records whether any type token occurred, and its flags are the
OR of all contributed flag bits. -/
theorem foldl_stepTok_char (toks : List (List Char)) : ∀ st : RebootSt,
    ((toks.foldl stepTok st).cmd = (toks.filterMap matchedType).getLastD st.cmd)
    ∧ ((toks.foldl stepTok st).got_cmd
        = (st.got_cmd || !(toks.filterMap matchedType).isEmpty))
    ∧ ((toks.foldl stepTok st).flags
        = (toks.filterMap matchedFlags).foldl (fun a b => a ||| b) st.flags) := by
  induction toks with
  | nil => intro st; simp
  | cons t ts ih =>
    intro st
    simp only [List.foldl_cons, List.filterMap_cons]
    cases hme : matchedEntry t with
    | none =>
      have ht : matchedType t = none := by simp [matchedType, hme]
      have hf : matchedFlags t = none := by simp [matchedFlags, hme]
      rw [ht, hf]
      simpa [stepTok, hme] using ih st
    | some e =>
      by_cases hflag : e.flags ≠ 0
      · have ht : matchedType t = none := by simp [matchedType, hme, hflag]
        have hf : matchedFlags t = some e.flags := by simp [matchedFlags, hme, hflag]
        rw [ht, hf]
        have hstep : stepTok st t = { st with flags := st.flags ||| e.flags } := by
          simp [stepTok, hme, applyWord, hflag]
        rw [hstep]
        simpa using ih { st with flags := st.flags ||| e.flags }
      · have hflag0 : e.flags = 0 := by omega
        have ht : matchedType t = some e.cmd := by simp [matchedType, hme, hflag0]
        have hf : matchedFlags t = none := by simp [matchedFlags, hme, hflag0]
        rw [ht, hf]
        have hstep : stepTok st t = ⟨e.cmd, st.flags, true⟩ := by
          simp [stepTok, hme, applyWord, hflag0]
        rw [hstep]
        obtain ⟨h1, h2, h3⟩ := ih ⟨e.cmd, st.flags, true⟩
        refine ⟨?_, ?_, ?_⟩
      
        · rw [h1, List.getLastD_cons]
        · rw [h2]; simp
        · exact h3

/-- Helper: the loop state reached by `reboot_store` on buffer `buf`, in terms
of the token-level views `typeCodes` and `flagBits`. -/
theorem rebootLoop_state (buf : List Char) :
    (rebootLoop buf ⟨0, 0, false⟩).cmd = (typeCodes buf).getLastD 0
    ∧ (rebootLoop buf ⟨0, 0, false⟩).got_cmd = !(typeCodes buf).isEmpty
    ∧ (rebootLoop buf ⟨0, 0, false⟩).flags = flagBits buf := by
  rw [rebootLoop_eq_foldl]
  have h := foldl_stepTok_char (cwords buf) ⟨0, 0, false⟩
  simpa [typeCodes, flagBits] using h

/-- Claim C2: the reboot write handler splits the input on whitespace and
matches each token case-insensitively against the fixed table; tokens may come
in any order with any whitespace separators; `at-shutdown` ORs in the shutdown
flag bit; each recognised reboot-type token assigns the type code, so with
several type tokens the code issued is exactly the last recognised type
token's code in input order; in particular "RO AT-SHUTDOWN" succeeds and the
issued command carries both the RO-jump code and the shutdown flag. -/
theorem c2_reboot_last_type_token_wins :
    (∀ (xfer : RebootMsg → Int) (buf : List Char) (count : Int),
        typeCodes buf ≠ [] →
        (reboot_store xfer buf count).1
          = some ⟨(typeCodes buf).getLastD 0, flagBits buf⟩)
    ∧ reboot_store (fun _ => 0) "RO AT-SHUTDOWN".toList 15
        = (some ⟨EC_REBOOT_JUMP_RO, EC_REBOOT_FLAG_ON_AP_SHUTDOWN⟩, 15) := by
  constructor
  · intro xfer buf count h
    obtain ⟨h1, h2, h3⟩ := rebootLoop_state buf
    have hg : (rebootLoop buf ⟨0, 0, false⟩).got_cmd = true := by
      rw [h2]
      cases htc : typeCodes buf with
      | nil => exact absurd htc h
      | cons a l => simp
    simp only [reboot_store, hg, if_true]
    rw [h1, h3]
  · decide

/-- Witness for C2 at input "rw cold": two type tokens, the later (`cold`)
wins. -/
theorem c2_witness :
    (reboot_store (fun _ => 0) "rw cold".toList 7).1
      = some ⟨(typeCodes "rw cold".toList).getLastD 0, flagBits "rw cold".toList⟩ :=
  c2_reboot_last_type_token_wins.1 (fun _ => 0) "rw cold".toList 7 (by decide)

/-- Claim C7: an input to the reboot write handler with no recognised
reboot-type token (for example `at-shutdown` alone, only unrecognised tokens,
or empty/whitespace-only input) fails with `-EINVAL` and no command is issued
to the device. -/
theorem c7_reboot_no_type_token_einval (xfer : RebootMsg → Int) (buf : List Char)
    (count : Int) (h : typeCodes buf = []) :
    reboot_store xfer buf count = (none, -22) := by
  obtain ⟨h1, h2, h3⟩ := rebootLoop_state buf
  have hg : (rebootLoop buf ⟨0, 0, false⟩).got_cmd = false := by
    rw [h2, h]
    rfl
  simp [reboot_store, hg]

/-- Witness for C7: "at-shutdown" alone is rejected with `-EINVAL` and
nothing is sent. -/
theorem c7_witness :
    reboot_store (fun _ => 0) "at-shutdown".toList 11 = (none, -22) :=
  c7_reboot_no_type_token_einval (fun _ => 0) "at-shutdown".toList 11 (by decide)

/-- Claim C10: token matching compares only the first `strlen(table word)`
characters case-insensitively, so an input token that merely begins with a
table word is treated as that table word rather than ignored: any token with
a table word as case-insensitive prefix is recognised, and concretely "root"
acts as `ro`, "cancelled" as `cancel`, "rw-now" as `rw`; writing "root" issues
the RO-jump command. -/
theorem c10_reboot_prefix_match :
    (∀ tok : List Char, (∃ e ∈ reboot_words, strncasecmp0 e.str tok = true) →
        matchedEntry tok ≠ none)
    ∧ matchedEntry "root".toList = some ⟨"ro".toList, EC_REBOOT_JUMP_RO, 0⟩
    ∧ matchedEntry "cancelled".toList = some ⟨"cancel".toList, EC_REBOOT_CANCEL, 0⟩
    ∧ matchedEntry "rw-now".toList = some ⟨"rw".toList, EC_REBOOT_JUMP_RW, 0⟩
    ∧ (reboot_store (fun _ => 0) "root".toList 4).1 = some ⟨EC_REBOOT_JUMP_RO, 0⟩ := by
  refine ⟨?_, by decide, by decide, by decide, by decide⟩
  intro tok hex hnone
  rw [matchedEntry, List.find?_eq_none] at hnone
  obtain ⟨e, he, hp⟩ := hex
  exact absurd hp (by simpa using hnone e he)

/-- Witness for C10: `cancelnow` begins with the table word `cancel` and is
therefore recognised. -/
theorem c10_witness : matchedEntry "cancelnow".toList ≠ none :=
  c10_reboot_prefix_match.1 "cancelnow".toList
    ⟨⟨"cancel".toList, EC_REBOOT_CANCEL, 0⟩, by decide, by decide⟩

/-- Claim C1 counterexample: a get-version failure aborts the whole read with
the transport status — the three remaining sub-queries contribute nothing and
no diagnostic line is emitted, refuting the claimed independence of every
sub-query. -/
theorem c1_counterexample : version_show c1_cex_queries = Except.error (-71) := rfl

/-- Claim C1 (amended): the get-version sub-query is not independent — its
failure aborts the whole read with that transport status and no text; each of
the remaining three sub-queries (build-info, chip-info, board-version) is
independent: a failing one emits one diagnostic line embedding the transport
status and the device result code, a successful one emits its formatted data,
and the overall text is the concatenation in the fixed query order. -/
theorem c1_version_aggregation
    (r : ec_response_get_version) (b : Except XferFail (List Nat))
    (c : Except XferFail ec_response_get_chip_info)
    (bd : Except XferFail ec_response_board_version) :
    (version_show ⟨.ok r, b, c, bd⟩
        = .ok (versionSegment r ++ buildSegment b ++ chipSegment c ++ boardSegment bd))
    ∧ (∀ f : XferFail, version_show ⟨.error f, b, c, bd⟩ = .error f.ret)
    ∧ (∀ f : XferFail, buildSegment (.error f)
        = "Build info:    XFER / EC ERROR " ++ toString f.ret ++ " / "
            ++ toString f.result ++ "\n")
    ∧ (∀ f : XferFail, chipSegment (.error f)
        = "Chip info:     XFER / EC ERROR " ++ toString f.ret ++ " / "
            ++ toString f.result ++ "\n")
    ∧ (∀ f : XferFail, boardSegment (.error f)
        = "Board version: XFER / EC ERROR " ++ toString f.ret ++ " / "
            ++ toString f.result ++ "\n") :=
  ⟨rfl, fun _ => rfl, fun _ => rfl, fun _ => rfl, fun _ => rfl⟩

/-- Claim C5: when the build-info sub-query fails and get-version,
get-chip-info and get-board-version succeed, the output is exactly the three
formatted version lines, one build-info diagnostic line embedding the
transport status and the device result code, and the formatted chip-info and
board-version lines, in the fixed query order. -/
theorem c5_version_build_info_diagnostic
    (r : ec_response_get_version) (f : XferFail)
    (c : ec_response_get_chip_info) (bd : ec_response_board_version)
    (hf : f.ret < 0) :
    version_show ⟨.ok r, .error f, .ok c, .ok bd⟩
      = .ok (versionSegment r
          ++ ("Build info:    XFER / EC ERROR " ++ toString f.ret ++ " / "
              ++ toString f.result ++ "\n")
          ++ chipSegment (.ok c) ++ boardSegment (.ok bd)) := rfl

/-- Witness for C5: a fully concrete instance, evaluated to its literal
output text. -/
theorem c5_witness :
    version_show ⟨.ok ⟨[114, 49, 0], [114, 50, 0], [], 1⟩, .error ⟨-71, 1⟩,
        .ok ⟨[118, 0], [110, 0], [51, 0]⟩, .ok ⟨2⟩⟩
      = .ok ("RO version:    r1\nRW version:    r2\nFirmware copy: RO\n"
          ++ "Build info:    XFER / EC ERROR -71 / 1\n"
          ++ "Chip vendor:   v\nChip name:     n\nChip revision: 3\n"
          ++ "Board version: 2\n") := by
  have h := c5_version_build_info_diagnostic ⟨[114, 49, 0], [114, 50, 0], [], 1⟩
    ⟨-71, 1⟩ ⟨[118, 0], [110, 0], [51, 0]⟩ ⟨2⟩ (by decide)
  rw [h]
  rfl

/-- Helper: takeWhile yields a prefix, so it never lengthens a list. -/
theorem length_takeWhile_le (p : Nat → Bool) (l : List Nat) :
    (l.takeWhile p).length ≤ l.length := by
  conv_rhs => rw [← List.takeWhile_append_dropWhile (p := p) (l := l)]
  rw [List.length_append]
  omega

/-- Helper: a trailing element failing the predicate does not change
takeWhile. -/
theorem takeWhile_append_stop (p : Nat → Bool) (x : Nat) (hx : p x = false) :
    ∀ l : List Nat, (l ++ [x]).takeWhile p = l.takeWhile p := by
  intro l
  induction l with
  | nil => simp [List.takeWhile, hx]
  | cons a t ih =>
    by_cases ha : p a
    · simp only [List.cons_append, List.takeWhile_cons, ha, if_true, ih]
    · simp only [List.cons_append, List.takeWhile_cons, ha]
      simp

/-- Claim C4: forcing the last byte of a fixed-capacity device field to a NUL
terminator before formatting keeps the `%s` scan inside the field: the length
is unchanged, the rendered bytes are strictly fewer than the capacity (the
scan stops at a terminator within the field), and the rendered text is a
proper prefix of the field's own bytes — truncated at capacity, never read
past the boundary.  `version_show` applies `forceTerminate` to all six string
fields (RO/RW version strings, build-info blob, chip vendor/name/revision)
before `byteStr`/`cString` ever touch them. -/
theorem c4_string_termination_safety (field : List Nat) (h : field ≠ []) :
    (forceTerminate field).length = field.length
    ∧ (cString (forceTerminate field)).length < field.length
    ∧ (∃ rest, rest ≠ [] ∧ field = cString (forceTerminate field) ++ rest) := by
  match field, h with
  | a :: t, _ =>
    have hlen : (a :: t).length - 1 = t.length := by simp
    have hft : forceTerminate (a :: t) = (a :: t).take t.length ++ [0] := by
      simp [forceTerminate]
    have htw : cString (forceTerminate (a :: t))
        = ((a :: t).take t.length).takeWhile (fun b => b ≠ 0) := by
      rw [hft, cString, takeWhile_append_stop _ 0 (by simp)]
    refine ⟨?_, ?_, ?_⟩
    · rw [hft, List.length_append, List.length_take]
      simp
    · rw [htw]
      calc (((a :: t).take t.length).takeWhile (fun b => b ≠ 0)).length
          ≤ ((a :: t).take t.length).length := length_takeWhile_le _ _
        _ ≤ t.length := by rw [List.length_take]; omega
        _ < (a :: t).length := by simp
    · refine ⟨((a :: t).take t.length).dropWhile (fun b => b ≠ 0)
          ++ (a :: t).drop t.length, ?_, ?_⟩
      · intro hemp
        have hd : (a :: t).drop t.length = [] := by
          rcases List.append_eq_nil.mp hemp with ⟨_, h2⟩
          exact h2
        have := congrArg List.length hd
        simp at this
      · rw [htw, ← List.append_assoc,
          List.takeWhile_append_dropWhile, List.take_append_drop]

/-- Witness for C4: a field with no NUL anywhere — formatting after forced
termination renders two of its three bytes and stays inside the field. -/
theorem c4_witness :
    (forceTerminate [65, 66, 67]).length = 3
    ∧ (cString (forceTerminate [65, 66, 67])).length < 3
    ∧ (∃ rest, rest ≠ [] ∧ [65, 66, 67] = cString (forceTerminate [65, 66, 67]) ++ rest) :=
  c4_string_termination_safety [65, 66, 67] (by decide)

/-- Claim C9: a current-image value outside the known range renders the
literal "?" placeholder in the "Firmware copy:" line instead of indexing the
image-name table out of bounds; values 0, 1, 2 render "unknown", "RO", "RW"
respectively. -/
theorem c9_firmware_copy_placeholder :
    (∀ v : Nat, 3 ≤ v → firmwareCopyName v = "?")
    ∧ firmwareCopyName 0 = "unknown"
    ∧ firmwareCopyName 1 = "RO"
    ∧ firmwareCopyName 2 = "RW"
    ∧ (∀ r : ec_response_get_version, 3 ≤ r.current_image →
        ∃ s : String, versionSegment r = s ++ ("Firmware copy: " ++ "?" ++ "\n")) := by
  have hq : ∀ v : Nat, 3 ≤ v → firmwareCopyName v = "?" := by
    intro v hv
    unfold firmwareCopyName
    rw [if_neg]
    simp [image_names]
    omega
  refine ⟨hq, rfl, rfl, rfl, ?_⟩
  intro r hr
  refine ⟨"RO version:    " ++ byteStr (cString (forceTerminate r.version_string_ro))
      ++ "\n" ++ "RW version:    "
      ++ byteStr (cString (forceTerminate r.version_string_rw)) ++ "\n", ?_⟩
  rw [versionSegment, hq r.current_image hr]
  simp only [String.append_assoc]

/-- Witness for C9: image value 7 is out of range and renders "?", both in
the name table lookup and in a full version segment. -/
theorem c9_witness :
    firmwareCopyName 7 = "?"
    ∧ ∃ s : String, versionSegment ⟨[0], [0], [], 7⟩ = s ++ ("Firmware copy: " ++ "?" ++ "\n") :=
  ⟨c9_firmware_copy_placeholder.1 7 (by decide),
   c9_firmware_copy_placeholder.2.2.2.2 ⟨[0], [0], [], 7⟩ (by decide)⟩

/-- Helper: the emit loop of `usbpdmuxinfo_show` appends exactly the
successful ports' lines. -/
theorem foldl_muxLines (mux : Nat → Except Int Nat) :
    ∀ (l : List Nat) (acc : String),
      (l.foldl (fun acc i =>
        match mux i with
        | .error _ => acc
        | .ok flags => acc ++ portLine i flags) acc)
      = acc ++ concatLines (muxLines mux l) := by
  intro l
  induction l with
  | nil => intro acc; simp [muxLines, concatLines]
  | cons a t ih =>
    intro acc
    simp only [List.foldl_cons, muxLines, List.filterMap_cons]
    cases hma : mux a with
    | error e =>
      simpa [muxLines] using ih acc
    | ok flags =>
      simp only [concatLines]
      rw [show (muxLines mux t) = t.filterMap (fun i =>
        match mux i with
        | .ok flags => some (portLine i flags)
        | .error _ => none) from rfl] at ih
      rw [ih (acc ++ portLine a flags), String.append_assoc]

/-- Helper: every port line is nonempty text. -/
theorem portLine_length_pos (i flags : Nat) : 0 < (portLine i flags).length := by
  have h : (portLine i flags).length
      = (("Port " ++ toString i ++ ":"
          ++ " USB=" ++ toString (bitFlag flags USB_PD_MUX_USB_ENABLED)
          ++ " DP=" ++ toString (bitFlag flags USB_PD_MUX_DP_ENABLED)
          ++ " POLARITY="
          ++ (if flags &&& USB_PD_MUX_POLARITY_INVERTED ≠ 0 then "INVERTED" else "NORMAL")
          ++ " HPD_IRQ=" ++ toString (bitFlag flags USB_PD_MUX_HPD_IRQ)
          ++ " HPD_LVL=" ++ toString (bitFlag flags USB_PD_MUX_HPD_LVL)
          ++ " SAFE=" ++ toString (bitFlag flags USB_PD_MUX_SAFE_MODE)
          ++ " TBT=" ++ toString (bitFlag flags USB_PD_MUX_TBT_COMPAT_ENABLED)
          ++ " USB4=" ++ toString (bitFlag flags USB_PD_MUX_USB4_ENABLED)).length
        + ("\n").length) := by
    rw [portLine, String.length_append]
  rw [h]
  have : ("\n" : String).length = 1 := rfl
  omega

/-- Helper: when port `j` fails and every other queried port succeeds with
flags `f i`, the contributed lines are exactly the other ports' lines in list
order. -/
theorem muxLines_single_fail (mux : Nat → Except Int Nat) (j : Nat)
    (f : Nat → Nat) (e : Int) (hj : mux j = .error e) :
    ∀ l : List Nat, (∀ i ∈ l, i ≠ j → mux i = .ok (f i)) →
      muxLines mux l = (l.filter (fun i => i != j)).map (fun i => portLine i (f i)) := by
  intro l
  induction l with
  | nil => intro _; rfl
  | cons a t ih =>
    intro h
    by_cases haj : a = j
    · subst haj
      simp only [muxLines, List.filterMap_cons, hj, List.filter_cons]
      have : (a != a) = false := by simp
      rw [this]
      simp only [Bool.false_eq_true, if_false]
      exact ih (fun i hi => h i (by simp [hi]))
    · have hma : mux a = .ok (f a) := h a (by simp) haj
      simp only [muxLines, List.filterMap_cons, hma, List.filter_cons]
      have : (a != j) = true := by simpa using haj
      rw [this]
      simp only [if_true]
      rw [List.map_cons]
      have ht := ih (fun i hi => h i (by simp [hi]))
      rw [muxLines] at ht
      rw [ht]

/-- Claim C3: for the usbpdmuxinfo read, a port-count failure or a zero port
count fails the read with `-EIO`; if every per-port query fails the read also
fails; a single per-port failure is silently skipped without aborting the
others, so with `N ≥ 2` ports and exactly one failing port the output is
exactly the other `N - 1` ports' lines in ascending port order; and each port
line names all eight boolean flags. -/
theorem c3_usbpdmuxinfo_partial_ports :
    (∀ (e : Int) (mux : Nat → Except Int Nat),
        usbpdmuxinfo_show (.error e) mux = .error (-5))
    ∧ (∀ mux : Nat → Except Int Nat, usbpdmuxinfo_show (.ok 0) mux = .error (-5))
    ∧ (∀ (n : Nat) (mux : Nat → Except Int Nat),
        (∀ i, i < n → ∃ e, mux i = .error e) →
        usbpdmuxinfo_show (.ok n) mux = .error (-5))
    ∧ (∀ (n j : Nat) (mux : Nat → Except Int Nat) (f : Nat → Nat) (e : Int),
        2 ≤ n → j < n → mux j = .error e →
        (∀ i, i < n → i ≠ j → mux i = .ok (f i)) →
        usbpdmuxinfo_show (.ok n) mux
          = .ok (concatLines (((List.range n).filter (fun i => i != j)).map
              (fun i => portLine i (f i))))
        ∧ (((List.range n).filter (fun i => i != j)).map
            (fun i => portLine i (f i))).length = n - 1
        ∧ ((List.range n).filter (fun i => i != j)).Pairwise (· < ·))
    ∧ (∀ i flags : Nat, portLine i flags
        = "Port " ++ toString i ++ ":"
          ++ " USB=" ++ toString (bitFlag flags USB_PD_MUX_USB_ENABLED)
          ++ " DP=" ++ toString (bitFlag flags USB_PD_MUX_DP_ENABLED)
          ++ " POLARITY="
          ++ (if flags &&& USB_PD_MUX_POLARITY_INVERTED ≠ 0 then "INVERTED" else "NORMAL")
          ++ " HPD_IRQ=" ++ toString (bitFlag flags USB_PD_MUX_HPD_IRQ)
          ++ " HPD_LVL=" ++ toString (bitFlag flags USB_PD_MUX_HPD_LVL)
          ++ " SAFE=" ++ toString (bitFlag flags USB_PD_MUX_SAFE_MODE)
          ++ " TBT=" ++ toString (bitFlag flags USB_PD_MUX_TBT_COMPAT_ENABLED)
          ++ " USB4=" ++ toString (bitFlag flags USB_PD_MUX_USB4_ENABLED) ++ "\n") := by
  refine ⟨fun e mux => rfl, fun mux => rfl, ?_, ?_, fun i flags => rfl⟩
  · intro n mux h
    have hml : muxLines mux (List.range n) = [] := by
      rw [muxLines, List.filterMap_eq_nil_iff]
      intro a ha
      obtain ⟨e, he⟩ := h a (List.mem_range.mp ha)
      rw [he]
    simp only [usbpdmuxinfo_show]
    rw [foldl_muxLines mux (List.range n) "", hml]
    rfl
  · intro n j mux f e hn hj hje h
    have hml : muxLines mux (List.range n)
        = ((List.range n).filter (fun i => i != j)).map (fun i => portLine i (f i)) :=
      muxLines_single_fail mux j f e hje (List.range n)
        (fun i hi => h i (List.mem_range.mp hi))
    have hflen : ((List.range n).filter (fun i => i != j)).length = n - 1 := by
      rw [← (List.nodup_range n).erase_eq_filter j]
      simpa [List.length_range] using List.length_erase_of_mem (List.mem_range.mpr hj)
    refine ⟨?_, by rw [List.length_map]; exact hflen, ?_⟩
    · simp only [usbpdmuxinfo_show]
      rw [foldl_muxLines mux (List.range n) "", hml, String.empty_append]
      have hpos : 0 < (concatLines (((List.range n).filter (fun i => i != j)).map
          (fun i => portLine i (f i)))).length := by
        cases hfl : ((List.range n).filter (fun i => i != j)) with
        | nil =>
          exfalso
          have := hflen
          rw [hfl] at this
          simp at this
          omega
        | cons a t =>
          rw [List.map_cons]
          simp only [concatLines]
          rw [String.length_append]
          have := portLine_length_pos a (f a)
          omega
      rw [if_neg (by omega)]
    · exact List.Pairwise.filter _ (List.pairwise_lt_range n)

/-- Witness for C3: three ports with port 1 failing — the output is exactly
the lines for ports 0 and 2, two lines, in ascending order. -/
theorem c3_witness :
    usbpdmuxinfo_show (.ok 3) (fun i => if i = 1 then Except.error (-1) else Except.ok i)
      = .ok (concatLines (((List.range 3).filter (fun i => i != 1)).map
          (fun i => portLine i i)))
    ∧ (((List.range 3).filter (fun i => i != 1)).map (fun i => portLine i i)).length = 3 - 1
    ∧ ((List.range 3).filter (fun i => i != 1)).Pairwise (· < ·) := by
  have h := c3_usbpdmuxinfo_partial_ports.2.2.2.1 3 1
    (fun i => if i = 1 then Except.error (-1) else Except.ok i)
    (fun i => i) (-1) (by decide) (by decide) rfl
    (by intro i hi hne; simp only []; rw [if_neg hne])
  exact h

/-- Claim C6: `kb_wake_angle` is reported not visible whenever the handle
lacks the keyboard-wake-angle capability, regardless of any other state;
`usbpdmuxinfo` and `ap_mode_entry` are reported not visible whenever the
platform identity differs from the expected primary-controller name; all
other attributes, and these attributes when their condition holds, keep their
declared mode. -/
theorem c6_visibility_gating :
    (∀ ec : cros_ec_dev, ec.has_kb_wake_angle = false →
        cros_ec_ctrl_visible ec .kb_wake_angle = 0)
    ∧ (∀ ec : cros_ec_dev, ec.ec_name ≠ CROS_EC_DEV_NAME →
        cros_ec_ctrl_visible ec .usbpdmuxinfo = 0
        ∧ cros_ec_ctrl_visible ec .ap_mode_entry = 0)
    ∧ (∀ ec : cros_ec_dev, ec.has_kb_wake_angle = true →
        cros_ec_ctrl_visible ec .kb_wake_angle = attrMode .kb_wake_angle)
    ∧ (∀ ec : cros_ec_dev, ec.ec_name = CROS_EC_DEV_NAME →
        cros_ec_ctrl_visible ec .usbpdmuxinfo = attrMode .usbpdmuxinfo
        ∧ cros_ec_ctrl_visible ec .ap_mode_entry = attrMode .ap_mode_entry)
    ∧ (∀ (ec : cros_ec_dev) (a : EcAttr),
        a ≠ .kb_wake_angle → a ≠ .usbpdmuxinfo → a ≠ .ap_mode_entry →
        cros_ec_ctrl_visible ec a = attrMode a) := by
  refine ⟨?_, ?_, ?_, ?_, ?_⟩
  · intro ec h
    simp [cros_ec_ctrl_visible, h]
  · intro ec h
    constructor <;> simp [cros_ec_ctrl_visible, h]
  · intro ec h
    simp [cros_ec_ctrl_visible, h]
  · intro ec h
    constructor <;> simp [cros_ec_ctrl_visible, h]
  · intro ec a h1 h2 h3
    cases a <;> simp_all [cros_ec_ctrl_visible]

/-- Witness for C6: a handle without the capability hides `kb_wake_angle`; a
handle with a secondary controller name hides `usbpdmuxinfo` and
`ap_mode_entry`; a matching primary handle keeps the declared modes. -/
theorem c6_witness :
    cros_ec_ctrl_visible ⟨false, "cros_ec"⟩ .kb_wake_angle = 0
    ∧ (cros_ec_ctrl_visible ⟨true, "cros_pd"⟩ .usbpdmuxinfo = 0
        ∧ cros_ec_ctrl_visible ⟨true, "cros_pd"⟩ .ap_mode_entry = 0)
    ∧ cros_ec_ctrl_visible ⟨true, "cros_pd"⟩ .reboot = attrMode .reboot :=
  ⟨c6_visibility_gating.1 ⟨false, "cros_ec"⟩ rfl,
   c6_visibility_gating.2.1 ⟨true, "cros_pd"⟩ (by decide),
   c6_visibility_gating.2.2.2.2 ⟨true, "cros_pd"⟩ .reboot
     (by decide) (by decide) (by decide)⟩

/-- Claim C8: if the text does not parse as an unsigned 16-bit integer the
write fails with the parse error and no command is issued; if it parses, the
parsed value is the angle sent, and when the exchange succeeds the handler
returns the byte count consumed. -/
theorem c8_kb_wake_angle_store_parse :
    (∀ (xfer : Nat → Int) (buf : List Char) (count : Int) (e : Int),
        kstrtou16 buf = .error e →
        kb_wake_angle_store xfer buf count = (none, e))
    ∧ (∀ (xfer : Nat → Int) (buf : List Char) (count : Int) (v : Nat),
        kstrtou16 buf = .ok v →
        (kb_wake_angle_store xfer buf count).1 = some v
        ∧ (0 ≤ xfer v → kb_wake_angle_store xfer buf count = (some v, count))) := by
  constructor
  · intro xfer buf count e h
    simp [kb_wake_angle_store, h]
  · intro xfer buf count v h
    refine ⟨by simp [kb_wake_angle_store, h], ?_⟩
    intro hx
    simp only [kb_wake_angle_store, h]
    rw [if_neg (by omega)]

/-- Witness for C8: "180" followed by a newline parses and is sent, the count
is returned; "abc" is rejected with `-EINVAL` and nothing is sent. -/
theorem c8_witness :
    kb_wake_angle_store (fun _ => 0) "180\n".toList 4 = (some 180, 4)
    ∧ kb_wake_angle_store (fun _ => 0) "abc".toList 3 = (none, -22) :=
  ⟨(c8_kb_wake_angle_store_parse.2 (fun _ => 0) "180\n".toList 4 180 (by decide)).2 (by omega),
   c8_kb_wake_angle_store_parse.1 (fun _ => 0) "abc".toList 3 (-22) (by decide)⟩
